import Mathlib

/-!
# fscache: the reaper expiry policy (`reaper.go`)

A shallow embedding of `reaper.go` and the properties of its threshold policy.

Conventions of the embedding.

* `time.Duration` is a Go `int64` count of nanoseconds.  It is the structure
  `Duration`: an integer together with the two range bounds.  Arithmetic that
  can leave the range is reduced with `wrapInt64` (two's complement), as Go
  does for signed integers; the only such operation in `reaper.go` is the unary
  minus in `-g.expiry`.
* `time.Time` is an instant of the wall clock, `Time.ns` nanoseconds after a
  fixed epoch.  `Time.Add` is `t + d` and `Time.Before` is the strict order of
  instants, as the `time` package documents them ("Add returns the time t+d",
  "Before reports whether the time instant t is before u").  Two details of the
  package's representation are not part of the model: the monotonic clock
  reading that a `time.Time` may carry (when either operand carries none, as a
  file time does, `Before` compares wall-clock instants), and
  the saturation of `Add` at the ends of the representable range of
  `time.Time`, further than 10^11 years from any clock reading, where a
  duration spans less than 293 years.
* An age `now - t` in a statement is the exact difference of two instants, an
  unbounded integer of nanoseconds.  `Time.Sub` is the age as the `time`
  package computes it, a 64-bit duration ("Sub returns the duration t-u";
  a result out of range is the maximum or the minimum duration).  `reaper.go`
  does not call it; it only states ages.
* `time.Now()` is the only effect of `Reap`.  The instant it returns is the
  explicit argument `now`; `Reap` samples the clock once per call.
* The methods have a pointer receiver.  `reaper.exec` runs one call and returns
  the result with the receiver after the call; `reaper.run` runs a sequence of
  calls.
* The constructors return the concrete `reaper` that sits behind the `Reaper`
  interface.
-/

set_option linter.unusedVariables false

namespace fscache

/-- Smallest value of a Go `int64`, -2^63. -/
def minInt64 : Int := -9223372036854775808

/-- Largest value of a Go `int64`, 2^63 - 1. -/
def maxInt64 : Int := 9223372036854775807

/-- Two's-complement reduction of an integer to the `int64` range: the value a
Go `int64` operation yields when the exact result is `n`. -/
def wrapInt64 (n : Int) : Int :=
  (n + 9223372036854775808) % 18446744073709551616 - 9223372036854775808

/-- Go `time.Duration`: an `int64` nanosecond count. -/
structure Duration where
  ns : Int
  lo : minInt64 ≤ ns
  hi : ns ≤ maxInt64

/-- Conversion of an integer to a `Duration`, wrapping as `int64` does. -/
def Duration.ofInt (n : Int) : Duration :=
  ⟨wrapInt64 n, by unfold wrapInt64 minInt64; omega, by unfold wrapInt64 maxInt64; omega⟩

/-- Go unary minus on a `time.Duration` (`-d`), which wraps on overflow. -/
def Duration.neg (d : Duration) : Duration :=
  Duration.ofInt (-d.ns)

/-- Go `minDuration`, the most negative duration: `-1 << 63` nanoseconds. -/
def minDuration : Duration :=
  ⟨minInt64, by unfold minInt64; omega, by unfold minInt64 maxInt64; omega⟩

/-- Go `maxDuration`, the largest duration: `1<<63 - 1` nanoseconds. -/
def maxDuration : Duration :=
  ⟨maxInt64, by unfold minInt64 maxInt64; omega, by unfold maxInt64; omega⟩

/-- Go `time.Minute`. -/
def Duration.Minute : Duration := Duration.ofInt 60000000000

/-- Go `time.Hour`. -/
def Duration.Hour : Duration := Duration.ofInt 3600000000000

/-- Go `time.Time`: a wall-clock instant, in nanoseconds after a fixed epoch. -/
structure Time where
  ns : Int

/-- Go `func (t Time) Add(d Duration) Time`: the time `t + d`. -/
def Time.Add (t : Time) (d : Duration) : Time :=
  ⟨t.ns + d.ns⟩

/-- Go `func (t Time) Before(u Time) bool`: whether instant `t` is before `u`. -/
def Time.Before (t u : Time) : Bool :=
  decide (t.ns < u.ns)

/-- Go `func (t Time) Sub(u Time) Duration`: the duration `t - u`, or the
minimum or maximum duration when `t - u` does not fit in 64 bits. -/
def Time.Sub (t u : Time) : Duration :=
  if hlo : t.ns - u.ns < minInt64 then minDuration
  else if hhi : maxInt64 < t.ns - u.ns then maxDuration
  else ⟨t.ns - u.ns, by omega, by omega⟩

/-- The `reaper` struct of `reaper.go`, fields in the order of the source. -/
structure reaper where
  period : Duration
  expiry : Duration
  reapOnLastWrite : Bool

/-- Go `NewLastReadReaper(expiry, period)`. -/
def NewLastReadReaper (expiry period : Duration) : reaper :=
  { expiry := expiry
    period := period
    reapOnLastWrite := false }

/-- Go `NewLastWriteReaper(expiry, period)`. -/
def NewLastWriteReaper (expiry period : Duration) : reaper :=
  { expiry := expiry
    period := period
    reapOnLastWrite := true }

/-- Go `NewReaper(expiry, period)`, which delegates to `NewLastReadReaper`. -/
def NewReaper (expiry period : Duration) : reaper :=
  NewLastReadReaper expiry period

/-- Go `func (g *reaper) Next() time.Duration`. -/
def reaper.Next (g : reaper) : Duration :=
  g.period

/-- Go `func (g *reaper) Reap(key string, lastRead, lastWrite time.Time) bool`.
The argument `now` is the value of the call's `time.Now()`. -/
def reaper.Reap (g : reaper) (now : Time) (key : String) (lastRead lastWrite : Time) : Bool :=
  if g.reapOnLastWrite then
    lastWrite.Before (now.Add (Duration.neg g.expiry))
  else
    lastRead.Before (now.Add (Duration.neg g.expiry))

/-- One method call on a policy, with the clock reading a `Reap` call samples. -/
inductive Call where
  | Next : Call
  | Reap (now : Time) (key : String) (lastRead lastWrite : Time) : Call

/-- The value a method call returns. -/
inductive Result where
  | duration (d : Duration) : Result
  | bool (b : Bool) : Result

/-- One call through the pointer receiver: the returned value and the receiver
as the call leaves it.  Neither method body assigns to a field. -/
def reaper.exec (g : reaper) : Call → Result × reaper
  | Call.Next => (Result.duration g.Next, g)
  | Call.Reap now key lastRead lastWrite => (Result.bool (g.Reap now key lastRead lastWrite), g)

/-- The receiver after a sequence of calls, made in order. -/
def reaper.run (g : reaper) : List Call → reaper
  | [] => g
  | c :: cs => reaper.run (g.exec c).2 cs

/-! ## Shared lemmas -/

/-- Unary minus is exact on every duration except `minDuration`. -/
theorem neg_ns_of_ne_min (d : Duration) (h : d.ns ≠ minInt64) :
    (Duration.neg d).ns = -d.ns := by
  have hlo := d.lo
  have hhi := d.hi
  unfold minInt64 at h hlo
  unfold maxInt64 at hhi
  show wrapInt64 (-d.ns) = -d.ns
  unfold wrapInt64
  omega

/-- Unary minus maps `minDuration` to itself. -/
theorem neg_minDuration : (Duration.neg minDuration).ns = minInt64 := by
  decide

/-- A duration is determined by its nanosecond count. -/
theorem Duration.eq_of_ns (a b : Duration) (h : a.ns = b.ns) : a = b := by
  cases a
  cases b
  cases h
  rfl

/-- Last-read mode compares `lastRead` with the computed cutoff. -/
theorem reap_lastRead_cutoff (expiry period : Duration) (now : Time) (key : String)
    (lastRead lastWrite : Time) :
    ((NewLastReadReaper expiry period).Reap now key lastRead lastWrite = true
      ↔ lastRead.ns < now.ns + (Duration.neg expiry).ns) := by
  simp [reaper.Reap, NewLastReadReaper, Time.Before, Time.Add]

/-- Last-write mode compares `lastWrite` with the computed cutoff. -/
theorem reap_lastWrite_cutoff (expiry period : Duration) (now : Time) (key : String)
    (lastRead lastWrite : Time) :
    ((NewLastWriteReaper expiry period).Reap now key lastRead lastWrite = true
      ↔ lastWrite.ns < now.ns + (Duration.neg expiry).ns) := by
  simp [reaper.Reap, NewLastWriteReaper, Time.Before, Time.Add]

/-- A call returns the receiver it was given. -/
theorem exec_snd (g : reaper) (c : Call) : (g.exec c).2 = g := by
  cases c <;> rfl

/-- A sequence of calls returns the receiver it was given. -/
theorem run_eq (g : reaper) (cs : List Call) : g.run cs = g := by
  induction cs generalizing g with
  | nil => rfl
  | cons c cs ih =>
    show reaper.run (g.exec c).2 cs = g
    rw [ih, exec_snd]

/-- Unary minus never exceeds the exact negation: it equals it, or wraps down. -/
theorem neg_ns_le (d : Duration) : (Duration.neg d).ns ≤ -d.ns := by
  have hlo := d.lo
  have hhi := d.hi
  unfold minInt64 at hlo
  unfold maxInt64 at hhi
  show wrapInt64 (-d.ns) ≤ -d.ns
  unfold wrapInt64
  omega

/-- Below the maximum duration, a duration lies under the 64-bit age `t.Sub(u)`
exactly when it lies under the exact difference `t - u`. -/
theorem lt_sub_ns_iff (d : Duration) (t u : Time) (hmax : d.ns ≠ maxInt64) :
    d.ns < (t.Sub u).ns ↔ d.ns < t.ns - u.ns := by
  have hlo := d.lo
  have hhi := d.hi
  unfold Time.Sub
  split
  · rename_i h1
    show d.ns < minInt64 ↔ d.ns < t.ns - u.ns
    omega
  · split
    · rename_i h1 h2
      show d.ns < maxInt64 ↔ d.ns < t.ns - u.ns
      omega
    · exact Iff.rfl

/-! ## C1: threshold in last-read mode -/

/-- C1, defect of the code at the minimum duration: with
`expiry = minDuration` (-2^63 ns) and lastRead one hour before now, lastRead is
strictly earlier than `now - expiry`, so the claim, like the doc comment of
`NewLastReadReaper` (last read older than expiry), asks for true; `Reap`
returns false, because `-g.expiry` overflows to -2^63 ns and the cutoff
becomes `now - 2^63 ns`. -/
theorem lastRead_threshold_fails_at_minDuration :
    (⟨1699996400000000000⟩ : Time).ns < (⟨1700000000000000000⟩ : Time).ns - minDuration.ns
    ∧ (NewLastReadReaper minDuration Duration.Minute).Reap ⟨1700000000000000000⟩ "k"
        ⟨1699996400000000000⟩ ⟨1699996400000000000⟩ = false := by
  decide

/-- Where the negation does not overflow, last-read mode is the threshold the
doc comment describes: for every expiry other than `minDuration`, `Reap` on the
policy of `NewLastReadReaper(expiry, period)` returns true iff lastRead is
strictly earlier than `now - expiry`; and for every expiry the result does not
change when lastWrite alone is changed. -/
theorem lastRead_threshold (expiry period : Duration) (now : Time) (key : String)
    (lastRead lastWrite lastWrite2 : Time) :
    (expiry.ns ≠ minInt64 →
      ((NewLastReadReaper expiry period).Reap now key lastRead lastWrite = true
        ↔ lastRead.ns < now.ns - expiry.ns))
    ∧ (NewLastReadReaper expiry period).Reap now key lastRead lastWrite2
        = (NewLastReadReaper expiry period).Reap now key lastRead lastWrite := by
  refine ⟨?_, rfl⟩
  intro h
  rw [reap_lastRead_cutoff, neg_ns_of_ne_min expiry h]
  omega

/-- Scenarios A and B of the spec: expiry one hour, period ten minutes;
lastRead two hours before now is reaped, thirty minutes before now is kept. -/
theorem lastRead_threshold_witness :
    Duration.Hour.ns ≠ minInt64
    ∧ ((NewLastReadReaper Duration.Hour (Duration.ofInt 600000000000)).Reap
          ⟨1700000000000000000⟩ "k" ⟨1699992800000000000⟩ ⟨0⟩ = true
        ↔ (⟨1699992800000000000⟩ : Time).ns
            < (⟨1700000000000000000⟩ : Time).ns - Duration.Hour.ns)
    ∧ (NewLastReadReaper Duration.Hour (Duration.ofInt 600000000000)).Reap
          ⟨1700000000000000000⟩ "k" ⟨1699992800000000000⟩ ⟨0⟩ = true
    ∧ (NewLastReadReaper Duration.Hour (Duration.ofInt 600000000000)).Reap
          ⟨1700000000000000000⟩ "k" ⟨1699998200000000000⟩ ⟨0⟩ = false :=
  ⟨by decide,
   (lastRead_threshold Duration.Hour (Duration.ofInt 600000000000) ⟨1700000000000000000⟩ "k"
      ⟨1699992800000000000⟩ ⟨0⟩ ⟨0⟩).1 (by decide),
   by decide, by decide⟩

/-! ## C2: threshold in last-write mode -/

/-- C2, defect of the code at the minimum duration: with
`expiry = minDuration` (-2^63 ns), lastWrite two hours before now and lastRead
one minute before now, lastWrite is strictly earlier than `now - expiry`, so
the claim, like the doc comment of `NewLastWriteReaper` (last write older than
expiry), asks for true; `Reap` returns false, because `-g.expiry` overflows to
-2^63 ns and the cutoff becomes `now - 2^63 ns`. -/
theorem lastWrite_threshold_fails_at_minDuration :
    (⟨1699992800000000000⟩ : Time).ns < (⟨1700000000000000000⟩ : Time).ns - minDuration.ns
    ∧ (NewLastWriteReaper minDuration Duration.Minute).Reap ⟨1700000000000000000⟩ "k"
        ⟨1699999940000000000⟩ ⟨1699992800000000000⟩ = false := by
  decide

/-- Where the negation does not overflow, last-write mode is the threshold the
doc comment describes: for every expiry other than `minDuration`, `Reap` on the
policy of `NewLastWriteReaper(expiry, period)` returns true iff lastWrite is
strictly earlier than `now - expiry`; and for every expiry the result does not
change when lastRead alone is changed. -/
theorem lastWrite_threshold (expiry period : Duration) (now : Time) (key : String)
    (lastRead lastRead2 lastWrite : Time) :
    (expiry.ns ≠ minInt64 →
      ((NewLastWriteReaper expiry period).Reap now key lastRead lastWrite = true
        ↔ lastWrite.ns < now.ns - expiry.ns))
    ∧ (NewLastWriteReaper expiry period).Reap now key lastRead2 lastWrite
        = (NewLastWriteReaper expiry period).Reap now key lastRead lastWrite := by
  refine ⟨?_, rfl⟩
  intro h
  rw [reap_lastWrite_cutoff, neg_ns_of_ne_min expiry h]
  omega

/-- Scenario D of the spec: expiry one hour, lastWrite two hours before
now, lastRead one minute before now; the entry is reaped. -/
theorem lastWrite_threshold_witness :
    Duration.Hour.ns ≠ minInt64
    ∧ ((NewLastWriteReaper Duration.Hour (Duration.ofInt 600000000000)).Reap
          ⟨1700000000000000000⟩ "k" ⟨1699999940000000000⟩ ⟨1699992800000000000⟩ = true
        ↔ (⟨1699992800000000000⟩ : Time).ns
            < (⟨1700000000000000000⟩ : Time).ns - Duration.Hour.ns)
    ∧ (NewLastWriteReaper Duration.Hour (Duration.ofInt 600000000000)).Reap
          ⟨1700000000000000000⟩ "k" ⟨1699999940000000000⟩ ⟨1699992800000000000⟩ = true :=
  ⟨by decide,
   (lastWrite_threshold Duration.Hour (Duration.ofInt 600000000000) ⟨1700000000000000000⟩ "k"
      ⟨1699999940000000000⟩ ⟨0⟩ ⟨1699992800000000000⟩).1 (by decide),
   by decide⟩

/-! ## C3: the boundary -/

/-- C3: for every expiry and instant now, an entry whose tracked timestamp is
exactly the cutoff is not reaped, in last-read mode and in last-write mode: both
for the exact instant `now - expiry` and for the cutoff `now.Add(-expiry)` that
`Reap` computes.  The comparison is strict. -/
theorem reap_boundary_false (expiry period : Duration) (now : Time) (key : String)
    (other : Time) :
    (NewLastReadReaper expiry period).Reap now key ⟨now.ns - expiry.ns⟩ other = false
    ∧ (NewLastWriteReaper expiry period).Reap now key other ⟨now.ns - expiry.ns⟩ = false
    ∧ (NewLastReadReaper expiry period).Reap now key (now.Add (Duration.neg expiry)) other
        = false
    ∧ (NewLastWriteReaper expiry period).Reap now key other (now.Add (Duration.neg expiry))
        = false := by
  have hneg := neg_ns_le expiry
  refine ⟨?_, ?_, ?_, ?_⟩
  · rw [Bool.eq_false_iff]
    intro h
    rw [reap_lastRead_cutoff] at h
    simp only at h
    omega
  · rw [Bool.eq_false_iff]
    intro h
    rw [reap_lastWrite_cutoff] at h
    simp only at h
    omega
  · rw [Bool.eq_false_iff]
    intro h
    rw [reap_lastRead_cutoff] at h
    simp only [Time.Add] at h
    omega
  · rw [Bool.eq_false_iff]
    intro h
    rw [reap_lastWrite_cutoff] at h
    simp only [Time.Add] at h
    omega

/-! ## C4: `Next` -/

/-- C4: for every expiry and every period, zero and negative ones included (the
constructors reject nothing), and for each of `NewReaper`, `NewLastReadReaper`
and `NewLastWriteReaper`, `Next()` on the constructed policy returns exactly the
period given to the constructor, also after any sequence `cs` of earlier `Reap`
and `Next` calls. -/
theorem next_returns_period (expiry period : Duration) (cs : List Call) :
    ((NewReaper expiry period).Next = period
      ∧ (NewLastReadReaper expiry period).Next = period
      ∧ (NewLastWriteReaper expiry period).Next = period)
    ∧ ((((NewReaper expiry period).run cs).exec Call.Next).1 = Result.duration period
      ∧ (((NewLastReadReaper expiry period).run cs).exec Call.Next).1 = Result.duration period
      ∧ (((NewLastWriteReaper expiry period).run cs).exec Call.Next).1
          = Result.duration period) := by
  refine ⟨⟨rfl, rfl, rfl⟩, ?_, ?_, ?_⟩ <;> rw [run_eq] <;> rfl

/-- C4 at a zero and at a negative period, after a `Next` and a `Reap` call:
the periods 0 ns and -5 ns come back unchanged. -/
theorem next_returns_period_witness :
    ((((NewLastWriteReaper (Duration.ofInt (-7)) (Duration.ofInt 0)).run
        [Call.Next, Call.Reap ⟨1700000000000000000⟩ "k" ⟨0⟩ ⟨0⟩]).exec Call.Next).1
      = Result.duration (Duration.ofInt 0))
    ∧ (NewReaper Duration.Hour (Duration.ofInt (-5))).Next.ns = -5 :=
  ⟨(next_returns_period (Duration.ofInt (-7)) (Duration.ofInt 0)
      [Call.Next, Call.Reap ⟨1700000000000000000⟩ "k" ⟨0⟩ ⟨0⟩]).2.2.2,
   by decide⟩

/-! ## C5: `NewReaper` is `NewLastReadReaper` -/

/-- C5: for every expiry and period, `NewReaper(expiry, period)` and
`NewLastReadReaper(expiry, period)` are the same policy: the same `Next()` and,
for every key, lastRead, lastWrite and instant now, the same `Reap`. -/
theorem newReaper_eq_newLastReadReaper (expiry period : Duration) (now : Time) (key : String)
    (lastRead lastWrite : Time) :
    NewReaper expiry period = NewLastReadReaper expiry period
    ∧ (NewReaper expiry period).Next = (NewLastReadReaper expiry period).Next
    ∧ (NewReaper expiry period).Reap now key lastRead lastWrite
        = (NewLastReadReaper expiry period).Reap now key lastRead lastWrite :=
  ⟨rfl, rfl, rfl⟩

/-! ## C6: eviction by age -/

/-- C6, defect of the code at the minimum duration: with
`expiry = minDuration` (-2^63 ns) an entry whose tracked timestamp is now has
age 0, as an exact difference and as the 64-bit duration `now.Sub(t)` alike;
the age is strictly greater than expiry, so the claim, like the doc comments of
the constructors (older than expiry), asks for true; `Reap` returns false in
both modes, because `-g.expiry` overflows to -2^63 ns. -/
theorem age_threshold_fails_at_minDuration :
    minDuration.ns < (⟨1700000000000000000⟩ : Time).ns - (⟨1700000000000000000⟩ : Time).ns
    ∧ minDuration.ns < ((⟨1700000000000000000⟩ : Time).Sub ⟨1700000000000000000⟩).ns
    ∧ (NewLastReadReaper minDuration Duration.Minute).Reap ⟨1700000000000000000⟩ "k"
        ⟨1700000000000000000⟩ ⟨1700000000000000000⟩ = false
    ∧ (NewLastWriteReaper minDuration Duration.Minute).Reap ⟨1700000000000000000⟩ "k"
        ⟨1700000000000000000⟩ ⟨1700000000000000000⟩ = false := by
  decide

/-- Where the negation does not overflow, `Reap` evicts by age as the doc
comments describe: for every expiry other than `minDuration`, every instant now
and tracked timestamp t, `Reap` returns true iff the exact age `now - t` is
strictly greater than expiry. -/
theorem age_threshold (expiry period : Duration) (now : Time) (key : String)
    (lastRead lastWrite : Time) (h : expiry.ns ≠ minInt64) :
    ((NewLastReadReaper expiry period).Reap now key lastRead lastWrite = true
      ↔ expiry.ns < now.ns - lastRead.ns)
    ∧ ((NewLastWriteReaper expiry period).Reap now key lastRead lastWrite = true
      ↔ expiry.ns < now.ns - lastWrite.ns) := by
  constructor
  · rw [reap_lastRead_cutoff, neg_ns_of_ne_min expiry h]
    omega
  · rw [reap_lastWrite_cutoff, neg_ns_of_ne_min expiry h]
    omega

/-- Eviction by age at expiry one hour: in last-read mode an entry read two
hours ago has an age above expiry and is reaped; in last-write mode an entry
written thirty minutes ago has an age below expiry and is kept. -/
theorem age_threshold_witness :
    Duration.Hour.ns ≠ minInt64
    ∧ (((NewLastReadReaper Duration.Hour Duration.Minute).Reap ⟨1700000000000000000⟩ "k"
          ⟨1699992800000000000⟩ ⟨1699998200000000000⟩ = true
        ↔ Duration.Hour.ns
            < (⟨1700000000000000000⟩ : Time).ns - (⟨1699992800000000000⟩ : Time).ns)
      ∧ ((NewLastWriteReaper Duration.Hour Duration.Minute).Reap ⟨1700000000000000000⟩ "k"
          ⟨1699992800000000000⟩ ⟨1699998200000000000⟩ = true
        ↔ Duration.Hour.ns
            < (⟨1700000000000000000⟩ : Time).ns - (⟨1699998200000000000⟩ : Time).ns))
    ∧ (NewLastReadReaper Duration.Hour Duration.Minute).Reap ⟨1700000000000000000⟩ "k"
          ⟨1699992800000000000⟩ ⟨1699998200000000000⟩ = true
    ∧ (NewLastWriteReaper Duration.Hour Duration.Minute).Reap ⟨1700000000000000000⟩ "k"
          ⟨1699992800000000000⟩ ⟨1699998200000000000⟩ = false :=
  ⟨by decide,
   age_threshold Duration.Hour Duration.Minute ⟨1700000000000000000⟩ "k"
     ⟨1699992800000000000⟩ ⟨1699998200000000000⟩ (by decide),
   by decide, by decide⟩

/-- The same with the age as the 64-bit duration `now.Sub(t)`: for every expiry
other than `minDuration` and `maxDuration`, `Reap` returns true iff
`now.Sub(t)` is strictly greater than expiry.  (No 64-bit age exceeds
`maxDuration`, while `Reap` compares instants and still reaps what is older.) -/
theorem age64_threshold (expiry period : Duration) (now : Time) (key : String)
    (lastRead lastWrite : Time) (hmin : expiry.ns ≠ minInt64) (hmax : expiry.ns ≠ maxInt64) :
    ((NewLastReadReaper expiry period).Reap now key lastRead lastWrite = true
      ↔ expiry.ns < (now.Sub lastRead).ns)
    ∧ ((NewLastWriteReaper expiry period).Reap now key lastRead lastWrite = true
      ↔ expiry.ns < (now.Sub lastWrite).ns) := by
  constructor
  · rw [lt_sub_ns_iff expiry now lastRead hmax, reap_lastRead_cutoff,
      neg_ns_of_ne_min expiry hmin]
    omega
  · rw [lt_sub_ns_iff expiry now lastWrite hmax, reap_lastWrite_cutoff,
      neg_ns_of_ne_min expiry hmin]
    omega

/-- Eviction by 64-bit age at expiry one hour, on the inputs of
`age_threshold_witness`. -/
theorem age64_threshold_witness :
    Duration.Hour.ns ≠ minInt64
    ∧ Duration.Hour.ns ≠ maxInt64
    ∧ (((NewLastReadReaper Duration.Hour Duration.Minute).Reap ⟨1700000000000000000⟩ "k"
          ⟨1699992800000000000⟩ ⟨1699998200000000000⟩ = true
        ↔ Duration.Hour.ns
            < ((⟨1700000000000000000⟩ : Time).Sub ⟨1699992800000000000⟩).ns)
      ∧ ((NewLastWriteReaper Duration.Hour Duration.Minute).Reap ⟨1700000000000000000⟩ "k"
          ⟨1699992800000000000⟩ ⟨1699998200000000000⟩ = true
        ↔ Duration.Hour.ns
            < ((⟨1700000000000000000⟩ : Time).Sub ⟨1699998200000000000⟩).ns)) :=
  ⟨by decide, by decide,
   age64_threshold Duration.Hour Duration.Minute ⟨1700000000000000000⟩ "k"
     ⟨1699992800000000000⟩ ⟨1699998200000000000⟩ (by decide) (by decide)⟩

/-! ## C7: negative expiry -/

/-- C7, defect of the code at the minimum duration: `minDuration` (-2^63 ns)
is a negative expiry, so the claim asks for a cutoff after now and for true on
an entry whose tracked timestamp is one second before now; `-g.expiry`
overflows to -2^63 ns, the cutoff `now.Add(-expiry)` lies 2^63 ns before now,
and `Reap` returns false in both modes. -/
theorem negative_expiry_fails_at_minDuration :
    minDuration.ns < 0
    ∧ ((⟨1700000000000000000⟩ : Time).Add (Duration.neg minDuration)).ns
        < (⟨1700000000000000000⟩ : Time).ns
    ∧ (⟨1699999999000000000⟩ : Time).ns ≤ (⟨1700000000000000000⟩ : Time).ns
    ∧ (NewLastReadReaper minDuration Duration.Minute).Reap ⟨1700000000000000000⟩ "k"
        ⟨1699999999000000000⟩ ⟨1699999999000000000⟩ = false
    ∧ (NewLastWriteReaper minDuration Duration.Minute).Reap ⟨1700000000000000000⟩ "k"
        ⟨1699999999000000000⟩ ⟨1699999999000000000⟩ = false := by
  decide

/-- Where the negation does not overflow, a negative expiry reaps everything:
for every negative expiry other than `minDuration`, the cutoff
`now.Add(-expiry)` computed by `Reap` lies strictly after now, so every entry
whose tracked timestamp t is at or before now is reaped, in both modes. -/
theorem negative_expiry_reaps (expiry period : Duration) (now : Time) (key : String)
    (t other : Time) (hneg : expiry.ns < 0) (hmin : expiry.ns ≠ minInt64)
    (ht : t.ns ≤ now.ns) :
    now.ns < (now.Add (Duration.neg expiry)).ns
    ∧ (NewLastReadReaper expiry period).Reap now key t other = true
    ∧ (NewLastWriteReaper expiry period).Reap now key other t = true := by
  have hn := neg_ns_of_ne_min expiry hmin
  refine ⟨?_, ?_, ?_⟩
  · show now.ns < now.ns + (Duration.neg expiry).ns
    omega
  · rw [reap_lastRead_cutoff]
    omega
  · rw [reap_lastWrite_cutoff]
    omega

/-- Negative expiry at -1 ns: an entry whose tracked timestamp is now itself
is reaped in both modes. -/
theorem negative_expiry_reaps_witness :
    (Duration.ofInt (-1)).ns < 0
    ∧ (Duration.ofInt (-1)).ns ≠ minInt64
    ∧ (⟨1700000000000000000⟩ : Time).ns ≤ (⟨1700000000000000000⟩ : Time).ns
    ∧ ((⟨1700000000000000000⟩ : Time).ns
          < ((⟨1700000000000000000⟩ : Time).Add (Duration.neg (Duration.ofInt (-1)))).ns
        ∧ (NewLastReadReaper (Duration.ofInt (-1)) Duration.Minute).Reap
            ⟨1700000000000000000⟩ "k" ⟨1700000000000000000⟩ ⟨1800000000000000000⟩ = true
        ∧ (NewLastWriteReaper (Duration.ofInt (-1)) Duration.Minute).Reap
            ⟨1700000000000000000⟩ "k" ⟨1800000000000000000⟩ ⟨1700000000000000000⟩ = true) :=
  ⟨by decide, by decide, by decide,
   negative_expiry_reaps (Duration.ofInt (-1)) Duration.Minute ⟨1700000000000000000⟩ "k"
     ⟨1700000000000000000⟩ ⟨1800000000000000000⟩ (by decide) (by decide) (by decide)⟩

/-! ## C8: zero expiry -/

/-- C8: with expiry = 0 the cutoff that `Reap` computes is the instant now at
which it samples the clock; in last-read mode every lastRead strictly before
that instant is reaped, and every lastRead equal to or after it is kept. -/
theorem zero_expiry (expiry period : Duration) (now : Time) (key : String)
    (lastRead lastWrite : Time) (h : expiry.ns = 0) :
    now.Add (Duration.neg expiry) = now
    ∧ (lastRead.ns < now.ns →
        (NewLastReadReaper expiry period).Reap now key lastRead lastWrite = true)
    ∧ (now.ns ≤ lastRead.ns →
        (NewLastReadReaper expiry period).Reap now key lastRead lastWrite = false) := by
  have hmin : expiry.ns ≠ minInt64 := by
    rw [h]
    decide
  have hn : (Duration.neg expiry).ns = 0 := by
    rw [neg_ns_of_ne_min expiry hmin, h]
    rfl
  refine ⟨?_, ?_, ?_⟩
  · show (⟨now.ns + (Duration.neg expiry).ns⟩ : Time) = now
    rw [hn, Int.add_zero]
  · intro hlt
    rw [reap_lastRead_cutoff]
    omega
  · intro hge
    rw [Bool.eq_false_iff]
    intro hr
    rw [reap_lastRead_cutoff] at hr
    omega

/-- C8 at expiry `Duration(0)`: lastRead one nanosecond before now is reaped,
lastRead equal to now and one nanosecond after now are kept. -/
theorem zero_expiry_witness :
    (Duration.ofInt 0).ns = 0
    ∧ ((⟨1700000000000000000⟩ : Time).Add (Duration.neg (Duration.ofInt 0))
          = ⟨1700000000000000000⟩
      ∧ ((⟨1699999999999999999⟩ : Time).ns < (⟨1700000000000000000⟩ : Time).ns →
          (NewLastReadReaper (Duration.ofInt 0) Duration.Minute).Reap
            ⟨1700000000000000000⟩ "k" ⟨1699999999999999999⟩ ⟨0⟩ = true)
      ∧ ((⟨1700000000000000000⟩ : Time).ns ≤ (⟨1699999999999999999⟩ : Time).ns →
          (NewLastReadReaper (Duration.ofInt 0) Duration.Minute).Reap
            ⟨1700000000000000000⟩ "k" ⟨1699999999999999999⟩ ⟨0⟩ = false))
    ∧ (NewLastReadReaper (Duration.ofInt 0) Duration.Minute).Reap
          ⟨1700000000000000000⟩ "k" ⟨1699999999999999999⟩ ⟨0⟩ = true
    ∧ (NewLastReadReaper (Duration.ofInt 0) Duration.Minute).Reap
          ⟨1700000000000000000⟩ "k" ⟨1700000000000000000⟩ ⟨0⟩ = false
    ∧ (NewLastReadReaper (Duration.ofInt 0) Duration.Minute).Reap
          ⟨1700000000000000000⟩ "k" ⟨1700000000000000001⟩ ⟨0⟩ = false :=
  ⟨by decide,
   zero_expiry (Duration.ofInt 0) Duration.Minute ⟨1700000000000000000⟩ "k"
     ⟨1699999999999999999⟩ ⟨0⟩ (by decide),
   by decide, by decide, by decide⟩

/-! ## C9: statelessness -/

/-- C9: the policy is stateless.  Every call, `Next` or `Reap`, returns the
receiver with period, expiry and mode as they were, and so does every sequence
of calls; and of two `Reap` calls with the same arguments at the same instant
now, the second, made after any calls `cs` in between, returns what the first
returned. -/
theorem reaper_stateless (g : reaper) (c : Call) (cs : List Call) (now : Time) (key : String)
    (lastRead lastWrite : Time) :
    ((g.exec c).2.period = g.period
      ∧ (g.exec c).2.expiry = g.expiry
      ∧ (g.exec c).2.reapOnLastWrite = g.reapOnLastWrite)
    ∧ g.run cs = g
    ∧ ((reaper.run (g.exec (Call.Reap now key lastRead lastWrite)).2 cs).exec
          (Call.Reap now key lastRead lastWrite)).1
        = (g.exec (Call.Reap now key lastRead lastWrite)).1 := by
  refine ⟨?_, run_eq g cs, ?_⟩
  · rw [exec_snd]
    exact ⟨rfl, rfl, rfl⟩
  · rw [run_eq, exec_snd]

/-- C9 on a last-write policy: a `Reap`, then a `Next` and a `Reap` at a later
instant with other arguments, then the first `Reap` again at the first instant:
both return true. -/
theorem reaper_stateless_witness :
    ((reaper.run
          ((NewLastWriteReaper Duration.Hour Duration.Minute).exec
            (Call.Reap ⟨1700000000000000000⟩ "k" ⟨0⟩ ⟨1699992800000000000⟩)).2
          [Call.Next, Call.Reap ⟨1800000000000000000⟩ "j" ⟨5⟩ ⟨1800000000000000000⟩]).exec
        (Call.Reap ⟨1700000000000000000⟩ "k" ⟨0⟩ ⟨1699992800000000000⟩)).1
      = ((NewLastWriteReaper Duration.Hour Duration.Minute).exec
          (Call.Reap ⟨1700000000000000000⟩ "k" ⟨0⟩ ⟨1699992800000000000⟩)).1
    ∧ (NewLastWriteReaper Duration.Hour Duration.Minute).Reap ⟨1700000000000000000⟩ "k"
        ⟨0⟩ ⟨1699992800000000000⟩ = true :=
  ⟨(reaper_stateless (NewLastWriteReaper Duration.Hour Duration.Minute) Call.Next
      [Call.Next, Call.Reap ⟨1800000000000000000⟩ "j" ⟨5⟩ ⟨1800000000000000000⟩]
      ⟨1700000000000000000⟩ "k" ⟨0⟩ ⟨1699992800000000000⟩).2.2,
   by decide⟩

/-! ## C10: the two modes -/

/-- C10: for every expiry, period, key, timestamps a and b and instant now, the
policies of `NewLastReadReaper` and `NewLastWriteReaper` hold the same period
and expiry and return the same `Next()`; `Reap(key, a, b)` in last-write mode
equals `Reap(key, b, a)` in last-read mode; and the two modes agree whenever
lastRead = lastWrite. -/
theorem lastWrite_is_lastRead_swapped (expiry period : Duration) (now : Time) (key : String)
    (a b : Time) :
    ((NewLastWriteReaper expiry period).period = (NewLastReadReaper expiry period).period
      ∧ (NewLastWriteReaper expiry period).expiry = (NewLastReadReaper expiry period).expiry)
    ∧ (NewLastWriteReaper expiry period).Next = (NewLastReadReaper expiry period).Next
    ∧ (NewLastWriteReaper expiry period).Reap now key a b
        = (NewLastReadReaper expiry period).Reap now key b a
    ∧ (NewLastWriteReaper expiry period).Reap now key a a
        = (NewLastReadReaper expiry period).Reap now key a a :=
  ⟨⟨rfl, rfl⟩, rfl, rfl, rfl⟩

/-- C10 at expiry one hour with a = now - 2h and b = now - 1m: last-write mode
on (a, b) and last-read mode on (b, a) both keep the entry, while last-read
mode on (a, b) reaps it. -/
theorem lastWrite_is_lastRead_swapped_witness :
    ((NewLastWriteReaper Duration.Hour Duration.Minute).Reap ⟨1700000000000000000⟩ "k"
        ⟨1699992800000000000⟩ ⟨1699999940000000000⟩
      = (NewLastReadReaper Duration.Hour Duration.Minute).Reap ⟨1700000000000000000⟩ "k"
        ⟨1699999940000000000⟩ ⟨1699992800000000000⟩)
    ∧ (NewLastWriteReaper Duration.Hour Duration.Minute).Reap ⟨1700000000000000000⟩ "k"
        ⟨1699992800000000000⟩ ⟨1699999940000000000⟩ = false
    ∧ (NewLastReadReaper Duration.Hour Duration.Minute).Reap ⟨1700000000000000000⟩ "k"
        ⟨1699992800000000000⟩ ⟨1699999940000000000⟩ = true :=
  ⟨(lastWrite_is_lastRead_swapped Duration.Hour Duration.Minute ⟨1700000000000000000⟩ "k"
      ⟨1699992800000000000⟩ ⟨1699999940000000000⟩).2.2.1,
   by decide, by decide⟩

/-! ## C12: the key -/

/-- C12: `Reap` ignores the key.  For every policy, in particular the ones
built by `NewReaper`, `NewLastReadReaper` and `NewLastWriteReaper`, and for
every lastRead, lastWrite and instant now, `Reap(k1, lastRead, lastWrite)`
equals `Reap(k2, lastRead, lastWrite)` for all keys k1 and k2. -/
theorem reap_ignores_key (g : reaper) (expiry period : Duration) (now : Time) (k1 k2 : String)
    (lastRead lastWrite : Time) :
    g.Reap now k1 lastRead lastWrite = g.Reap now k2 lastRead lastWrite
    ∧ (NewReaper expiry period).Reap now k1 lastRead lastWrite
        = (NewReaper expiry period).Reap now k2 lastRead lastWrite
    ∧ (NewLastReadReaper expiry period).Reap now k1 lastRead lastWrite
        = (NewLastReadReaper expiry period).Reap now k2 lastRead lastWrite
    ∧ (NewLastWriteReaper expiry period).Reap now k1 lastRead lastWrite
        = (NewLastWriteReaper expiry period).Reap now k2 lastRead lastWrite :=
  ⟨rfl, rfl, rfl, rfl⟩

/-- C12 at two keys, the empty one and a long one: in last-read mode both
calls reap the entry, in last-write mode both keep it. -/
theorem reap_ignores_key_witness :
    ((NewLastReadReaper Duration.Hour Duration.Minute).Reap ⟨1700000000000000000⟩ ""
        ⟨1699992800000000000⟩ ⟨1699999940000000000⟩
      = (NewLastReadReaper Duration.Hour Duration.Minute).Reap ⟨1700000000000000000⟩
        "stream/0001" ⟨1699992800000000000⟩ ⟨1699999940000000000⟩)
    ∧ (NewLastReadReaper Duration.Hour Duration.Minute).Reap ⟨1700000000000000000⟩ ""
        ⟨1699992800000000000⟩ ⟨1699999940000000000⟩ = true
    ∧ (NewLastWriteReaper Duration.Hour Duration.Minute).Reap ⟨1700000000000000000⟩
        "stream/0001" ⟨1699992800000000000⟩ ⟨1699999940000000000⟩ = false :=
  ⟨(reap_ignores_key (NewReaper Duration.Hour Duration.Minute) Duration.Hour Duration.Minute
      ⟨1700000000000000000⟩ "" "stream/0001" ⟨1699992800000000000⟩
      ⟨1699999940000000000⟩).2.2.1,
   by decide, by decide⟩

/-! ## C13: later instants -/

/-- C13: eviction eligibility is monotone in time.  For a fixed policy and fixed
lastRead and lastWrite, if `Reap` returns true when the clock reads now, it
returns true when the clock reads any later instant now2 >= now. -/
theorem reap_mono_now (g : reaper) (now now2 : Time) (key : String) (lastRead lastWrite : Time)
    (hnow : now.ns ≤ now2.ns) (hreap : g.Reap now key lastRead lastWrite = true) :
    g.Reap now2 key lastRead lastWrite = true := by
  unfold reaper.Reap at hreap ⊢
  cases hm : g.reapOnLastWrite
  · rw [hm] at hreap
    simp only [Bool.false_eq_true, if_false, Time.Before, Time.Add, decide_eq_true_eq]
      at hreap ⊢
    omega
  · rw [hm] at hreap
    simp only [if_true, Time.Before, Time.Add, decide_eq_true_eq] at hreap ⊢
    omega

/-- C13 at expiry one hour in last-write mode: an entry written two hours
before now is reaped at now, and is reaped one day later. -/
theorem reap_mono_now_witness :
    (⟨1700000000000000000⟩ : Time).ns ≤ (⟨1700086400000000000⟩ : Time).ns
    ∧ (NewLastWriteReaper Duration.Hour Duration.Minute).Reap ⟨1700000000000000000⟩ "k"
        ⟨1699999940000000000⟩ ⟨1699992800000000000⟩ = true
    ∧ (NewLastWriteReaper Duration.Hour Duration.Minute).Reap ⟨1700086400000000000⟩ "k"
        ⟨1699999940000000000⟩ ⟨1699992800000000000⟩ = true :=
  ⟨by decide, by decide,
   reap_mono_now (NewLastWriteReaper Duration.Hour Duration.Minute) ⟨1700000000000000000⟩
     ⟨1700086400000000000⟩ "k" ⟨1699999940000000000⟩ ⟨1699992800000000000⟩
     (by decide) (by decide)⟩

/-! ## C14: shorter expiry -/

/-- C14, defect of the code at the minimum duration: with
`e1 = minDuration` (-2^63 ns) and `e2 = 0`, so e1 <= e2, an entry whose
timestamps lie one second before now is reaped by the policy with expiry e2, so
the claim asks that the policy with the shorter expiry e1 reaps it too; that
policy keeps it, in last-read mode and in last-write mode, because `-g.expiry`
overflows to -2^63 ns. -/
theorem reap_mono_expiry_fails_at_minDuration :
    minDuration.ns ≤ (Duration.ofInt 0).ns
    ∧ ((NewLastReadReaper (Duration.ofInt 0) Duration.Minute).Reap ⟨1700000000000000000⟩ "k"
          ⟨1699999999000000000⟩ ⟨1699999999000000000⟩ = true
      ∧ (NewLastReadReaper minDuration Duration.Minute).Reap ⟨1700000000000000000⟩ "k"
          ⟨1699999999000000000⟩ ⟨1699999999000000000⟩ = false)
    ∧ ((NewLastWriteReaper (Duration.ofInt 0) Duration.Minute).Reap ⟨1700000000000000000⟩ "k"
          ⟨1699999999000000000⟩ ⟨1699999999000000000⟩ = true
      ∧ (NewLastWriteReaper minDuration Duration.Minute).Reap ⟨1700000000000000000⟩ "k"
          ⟨1699999999000000000⟩ ⟨1699999999000000000⟩ = false) := by
  decide

/-- Where the negation does not overflow, eviction is monotone in expiry: for
a fixed mode, instant now and timestamps, and any two expiry values e1 <= e2
where e1 is not `minDuration` (or e1 = e2), if the policy with expiry e2 reaps
the entry then the policy with expiry e1 also reaps it. -/
theorem reap_mono_expiry (e1 e2 period1 period2 : Duration) (now : Time) (key : String)
    (lastRead lastWrite : Time) (hle : e1.ns ≤ e2.ns)
    (hmin : e1.ns ≠ minInt64 ∨ e2.ns = e1.ns) :
    ((NewLastReadReaper e2 period2).Reap now key lastRead lastWrite = true →
      (NewLastReadReaper e1 period1).Reap now key lastRead lastWrite = true)
    ∧ ((NewLastWriteReaper e2 period2).Reap now key lastRead lastWrite = true →
      (NewLastWriteReaper e1 period1).Reap now key lastRead lastWrite = true) := by
  have hneg : (Duration.neg e2).ns ≤ (Duration.neg e1).ns := by
    rcases hmin with h1 | heq
    · have h2 : e2.ns ≠ minInt64 := by
        have hlo := e1.lo
        omega
      rw [neg_ns_of_ne_min e1 h1, neg_ns_of_ne_min e2 h2]
      omega
    · rw [Duration.eq_of_ns e2 e1 heq]
  constructor
  · intro h
    rw [reap_lastRead_cutoff] at h ⊢
    omega
  · intro h
    rw [reap_lastWrite_cutoff] at h ⊢
    omega

/-- Monotonicity at e1 = 30 minutes and e2 = one hour: an entry read and written two
hours before now is reaped under e2, hence under e1, in both modes. -/
theorem reap_mono_expiry_witness :
    (Duration.ofInt 1800000000000).ns ≤ Duration.Hour.ns
    ∧ ((Duration.ofInt 1800000000000).ns ≠ minInt64
        ∨ Duration.Hour.ns = (Duration.ofInt 1800000000000).ns)
    ∧ (NewLastReadReaper Duration.Hour Duration.Minute).Reap ⟨1700000000000000000⟩ "k"
        ⟨1699992800000000000⟩ ⟨1699992800000000000⟩ = true
    ∧ (NewLastReadReaper (Duration.ofInt 1800000000000) Duration.Minute).Reap
        ⟨1700000000000000000⟩ "k" ⟨1699992800000000000⟩ ⟨1699992800000000000⟩ = true
    ∧ (NewLastWriteReaper (Duration.ofInt 1800000000000) Duration.Minute).Reap
        ⟨1700000000000000000⟩ "k" ⟨1699992800000000000⟩ ⟨1699992800000000000⟩ = true :=
  ⟨by decide, Or.inl (by decide), by decide,
   (reap_mono_expiry (Duration.ofInt 1800000000000) Duration.Hour Duration.Minute
      Duration.Minute ⟨1700000000000000000⟩ "k" ⟨1699992800000000000⟩
      ⟨1699992800000000000⟩ (by decide) (Or.inl (by decide))).1 (by decide),
   (reap_mono_expiry (Duration.ofInt 1800000000000) Duration.Hour Duration.Minute
      Duration.Minute ⟨1700000000000000000⟩ "k" ⟨1699992800000000000⟩
      ⟨1699992800000000000⟩ (by decide) (Or.inl (by decide))).2 (by decide)⟩

end fscache
